import Mathlib

/-!
Verification development for the fand daemon.

This file shallowly embeds the protocol layer of fand/communication.py
(framing, the request enumeration, send and recv, the connection registry)
and the shelf control state machine of fand/server.py (the Shelf class,
its property getters and setters, its update method, and the SET_RPM
request handler), and proves properties of that embedding.

Machine integers do not occur: Python integers are unbounded, Python
floats are modelled as rationals, bytes are modelled as lists of natural
numbers.  Wall-clock reads such as datetime.now become explicit
parameters.  The pickle module is an external collaborator; the payload
it produces is opaque to the framing code, so it is modelled by a
concrete injective, self-delimiting encoding together with the decoder
that inverts it, which is the contract recv relies on.
-/

namespace Fand

/-- Enumeration of known requests (class Request of communication.py). -/
inductive Request where
  | ACK
  | PING
  | DISCONNECT
  | GET_PWM
  | SET_PWM
  | GET_RPM
  | SET_RPM
  | SET_PWM_OVERRIDE
  | SET_PWM_EXPIRE
  deriving DecidableEq, Repr

/-- Model of the Python values carried as request arguments (shelf
identifiers, speeds, optional reason strings). -/
inductive PyVal where
  | pyNone
  | pyInt (i : Int)
  | pyRat (q : Rat)
  | pyStr (s : String)
  deriving DecidableEq, Repr

/-- Self-delimiting encoding of a natural number (part of the pickle
model): a run of ones of length n closed by a zero. -/
def natEncode (n : Nat) : List Nat := List.replicate n 1 ++ [0]

/-- Decoder inverting natEncode; returns the value and the unread rest. -/
def natDecode : List Nat → Option (Nat × List Nat)
  | [] => none
  | b :: rest =>
    if b = 0 then some (0, rest)
    else if b = 1 then
      match natDecode rest with
      | some (n, r) => some (n + 1, r)
      | none => none
    else none

/-- Encoding of a Python int: a sign byte then the absolute value. -/
def intEncode (i : Int) : List Nat :=
  (if i < 0 then 1 else 0) :: natEncode i.natAbs

/-- Decoder inverting intEncode. -/
def intDecode : List Nat → Option (Int × List Nat)
  | [] => none
  | b :: rest =>
    match natDecode rest with
    | some (n, r) =>
      if b = 1 then some (-(n : Int), r)
      else if b = 0 then some ((n : Int), r)
      else none
    | none => none

/-- Encoding of a Python float, modelled as a rational: numerator then
denominator. -/
def ratEncode (q : Rat) : List Nat := intEncode q.num ++ natEncode q.den

/-- Decoder inverting ratEncode. -/
def ratDecode (l : List Nat) : Option (Rat × List Nat) :=
  match intDecode l with
  | some (n, r) =>
    match natDecode r with
    | some (d, r2) => some ((n : Rat) / (d : Rat), r2)
    | none => none
  | none => none

/-- Encoding of a list of characters by their code points. -/
def charsEncode (cs : List Char) : List Nat :=
  cs.foldr (fun c acc => natEncode c.toNat ++ acc) []

/-- Decoder reading a given number of characters. -/
def charsDecode : Nat → List Nat → Option (List Char × List Nat)
  | 0, l => some ([], l)
  | k + 1, l =>
    match natDecode l with
    | some (n, r) =>
      match charsDecode k r with
      | some (cs, r2) => some (Char.ofNat n :: cs, r2)
      | none => none
    | none => none

/-- Encoding of a Python str: length then the characters. -/
def strEncode (s : String) : List Nat :=
  natEncode s.data.length ++ charsEncode s.data

/-- Decoder inverting strEncode. -/
def strDecode (l : List Nat) : Option (String × List Nat) :=
  match natDecode l with
  | some (n, r) =>
    match charsDecode n r with
    | some (cs, r2) => some (String.mk cs, r2)
    | none => none
  | none => none

/-- Encoding of one argument value: a tag byte then the payload. -/
def valEncode : PyVal → List Nat
  | .pyNone => [0]
  | .pyInt i => 1 :: intEncode i
  | .pyRat q => 2 :: ratEncode q
  | .pyStr s => 3 :: strEncode s

/-- Decoder inverting valEncode. -/
def valDecode : List Nat → Option (PyVal × List Nat)
  | [] => none
  | t :: rest =>
    if t = 0 then some (.pyNone, rest)
    else if t = 1 then
      match intDecode rest with
      | some (i, r) => some (.pyInt i, r)
      | none => none
    else if t = 2 then
      match ratDecode rest with
      | some (q, r) => some (.pyRat q, r)
      | none => none
    else if t = 3 then
      match strDecode rest with
      | some (s, r) => some (.pyStr s, r)
      | none => none
    else none

/-- Encoding of the argument tuple: length then the values. -/
def valsEncode (args : List PyVal) : List Nat :=
  natEncode args.length ++ args.foldr (fun v acc => valEncode v ++ acc) []

/-- Decoder reading a given number of argument values. -/
def valsDecode : Nat → List Nat → Option (List PyVal × List Nat)
  | 0, l => some ([], l)
  | k + 1, l =>
    match valDecode l with
    | some (v, r) =>
      match valsDecode k r with
      | some (vs, r2) => some (v :: vs, r2)
      | none => none
    | none => none

/-- Numeric tag of a request kind, used by the pickle model. -/
def requestTag : Request → Nat
  | .ACK => 0
  | .PING => 1
  | .DISCONNECT => 2
  | .GET_PWM => 3
  | .SET_PWM => 4
  | .GET_RPM => 5
  | .SET_RPM => 6
  | .SET_PWM_OVERRIDE => 7
  | .SET_PWM_EXPIRE => 8

/-- Inverse of requestTag. -/
def requestOfTag : Nat → Option Request
  | 0 => some .ACK
  | 1 => some .PING
  | 2 => some .DISCONNECT
  | 3 => some .GET_PWM
  | 4 => some .SET_PWM
  | 5 => some .GET_RPM
  | 6 => some .SET_RPM
  | 7 => some .SET_PWM_OVERRIDE
  | 8 => some .SET_PWM_EXPIRE
  | _ => none

/-- Model of pickle.dumps on the tuple (request, args) built by send. -/
def pickleDumps (request : Request) (args : List PyVal) : List Nat :=
  requestTag request :: valsEncode args

/-- Model of pickle.loads as used by recv: the bytes must decode to a
(request, args) tuple exactly. -/
def pickleLoads (l : List Nat) : Option (Request × List PyVal) :=
  match l with
  | [] => none
  | t :: rest =>
    match requestOfTag t with
    | some r =>
      match natDecode rest with
      | some (n, r2) =>
        match valsDecode n r2 with
        | some (args, []) => some (r, args)
        | _ => none
      | none => none
    | none => none

/-- Header magic bytes, the constant HEADER_MAGIC = b"99F9". -/
def HEADER_MAGIC : List Nat := [57, 57, 70, 57]

/-- HEADER_MAGIC_SIZE of communication.py. -/
def HEADER_MAGIC_SIZE : Nat := 4

/-- HEADER_DATA_SIZE of communication.py. -/
def HEADER_DATA_SIZE : Nat := 4

/-- HEADER_SIZE of communication.py. -/
def HEADER_SIZE : Nat := HEADER_MAGIC_SIZE + HEADER_DATA_SIZE

/-- ASCII code of the lowercase hex digit for d, as produced by the
Python expression format(n, "x"). -/
def toHexChar (d : Nat) : Nat := if d < 10 then 48 + d else 87 + d

/-- Little-endian hex digit values of n.  The first argument is fuel
instantiated with n itself (an upper bound on the digit count), making
the recursion structural. -/
def natToHexAux : Nat → Nat → List Nat
  | 0, _ => []
  | fuel + 1, n => if n = 0 then [] else n % 16 :: natToHexAux fuel (n / 16)

/-- ASCII bytes of format(n, "x"): lowercase hex without leading zeros,
and the single digit 0 for n = 0. -/
def natToHexBytes (n : Nat) : List Nat :=
  if n = 0 then [48] else (natToHexAux n n).reverse.map toHexChar

/-- Python str.zfill applied to an ASCII byte string: left-pad with the
digit 0 up to width w; a longer string is returned unchanged. -/
def zfill (w : Nat) (l : List Nat) : List Nat :=
  List.replicate (w - l.length) 48 ++ l

/-- The data-size field written by send, line 103 of communication.py:
format(len(data_bytes), "x").zfill(HEADER_DATA_SIZE). -/
def lenField (n : Nat) : List Nat := zfill HEADER_DATA_SIZE (natToHexBytes n)

/-- Hex value of one ASCII byte, as accepted by Python int(s, base=16). -/
def hexDigitVal (c : Nat) : Option Nat :=
  if 48 ≤ c ∧ c ≤ 57 then some (c - 48)
  else if 97 ≤ c ∧ c ≤ 102 then some (c - 87)
  else if 65 ≤ c ∧ c ≤ 70 then some (c - 55)
  else none

/-- Accumulating hex parser over ASCII bytes. -/
def parseHexAux : List Nat → Nat → Option Nat
  | [], acc => some acc
  | c :: cs, acc =>
    match hexDigitVal c with
    | some d => parseHexAux cs (16 * acc + d)
    | none => none

/-- Python int(s, base=16) on a byte string: fails on the empty string
and on any non-hex-digit byte. -/
def parseHex (l : List Nat) : Option Nat :=
  if l.isEmpty then none else parseHexAux l 0

/-- Frame built by send from the pickled payload (lines 103 to 107 of
communication.py): magic, zero-padded lowercase hex size, payload. -/
def sendFrame (dataBytes : List Nat) : List Nat :=
  HEADER_MAGIC ++ lenField dataBytes.length ++ dataBytes

/-- communication.send: pickle (request, args) and frame the result.  The
byte string passed to the one socket send call is returned; transport
failures (timeout, OSError, partial write) are outside this model. -/
def send (request : Request) (args : List PyVal) : List Nat :=
  sendFrame (pickleDumps request args)

/-- Failure conditions of recv visible in this model. -/
inductive RecvError where
  /-- FandConnectionResetError: empty read or a DISCONNECT request. -/
  | connectionReset
  /-- CorruptedDataError: short header, bad magic, or unpicklable data. -/
  | corruptedData
  /-- ValueError escaping recv when the size field is not hex (the int
  call at line 143 is outside every try block). -/
  | uncaughtValueError
  deriving DecidableEq, Repr

/-- communication.recv over the incoming byte stream of the socket; on
success it returns the decoded message and the unread rest of the
stream.  Each sock.recv(k) is modelled as taking up to k bytes of the
stream, which is what a TCP stream delivering the whole frame gives. -/
def recv (stream : List Nat) :
    Except RecvError ((Request × List PyVal) × List Nat) :=
  let header := stream.take HEADER_SIZE
  if header.isEmpty then .error .connectionReset
  else if header.length ≠ HEADER_SIZE then .error .corruptedData
  else
    let magic := header.take HEADER_MAGIC_SIZE
    match parseHex (header.drop HEADER_MAGIC_SIZE) with
    | none => .error .uncaughtValueError
    | some dataSize =>
      if magic ≠ HEADER_MAGIC then .error .corruptedData
      else
        match pickleLoads ((stream.drop HEADER_SIZE).take dataSize) with
        | none => .error .corruptedData
        | some (request, args) =>
          if request = .DISCONNECT then .error .connectionReset
          else .ok ((request, args), stream.drop (HEADER_SIZE + dataSize))

/-- Enumeration Device.DeviceType of server.py. -/
inductive DeviceType where
  | NONE
  | HDD
  | SSD
  | CPU
  deriving DecidableEq, Repr

/-- Members of Device.DeviceType in enum iteration order. -/
def allDeviceTypes : List DeviceType := [.NONE, .HDD, .SSD, .CPU]

/-- A device as Shelf.update sees it after device.update(): its class and
its already refreshed temperature reading.  The hardware access behind
Device (pySMART, psutil) is an external collaborator; a missing device is
the NONE class with temperature 0. -/
structure Device where
  serial : String
  type : DeviceType
  temperature : Rat
  deriving DecidableEq, Repr

/-- Model of a Python datetime: a wall-clock reading in seconds together
with an optional fixed UTC offset standing for tzinfo; tz = none models a
naive datetime. -/
structure PyDatetime where
  wall : Int
  tz : Option Int
  deriving DecidableEq, Repr

/-- Absolute UTC instant of a datetime; comparisons between aware
datetimes compare these instants. -/
def PyDatetime.instant (d : PyDatetime) : Int := d.wall - d.tz.getD 0

/-- Domain errors raised by the Shelf property setters and constructor
(exceptions.py, all subclasses of ValueError). -/
inductive ShelfError where
  | temperatureBadValue
  | rpmBadValue
  | pwmBadValue
  | pwmExpireBadValue
  deriving DecidableEq, Repr

/-- State of class Shelf of server.py.  The field pwm is the private
attribute holding the base value computed by update; rpm, pwm_override
and pwm_expire are the other private attributes.  The temperatures field
is the per-class curve dict, each curve a list of
(temperature threshold, speed) items in dict iteration order. -/
structure Shelf where
  identifier : String
  devices : List Device
  temperatures : DeviceType → List (Rat × Rat)
  pwm : Rat
  rpm : Rat
  pwm_override : Option Rat
  pwm_expire : Option PyDatetime
  sleep_time : Rat

/-- Python dict insertion as used by the device dict comprehension: an
existing key keeps its position but takes the new value. -/
def dictInsertDevice : List Device → Device → List Device
  | [], d => [d]
  | e :: es, d =>
    if e.serial = d.serial then d :: es else e :: dictInsertDevice es d

/-- Values of the dict comprehension building the private device dict of
Shelf, keyed by serial. -/
def devicesDict (ds : List Device) : List Device :=
  ds.foldl dictInsertDevice []

/-- Curve lookup dict.get(0), returning the speed of the 0 threshold. -/
def curveZero (curve : List (Rat × Rat)) : Option Rat :=
  (curve.find? (fun p => decide (p.1 = 0))).map Prod.snd

/-- Constructor of Shelf: fills the curve dict (missing curves default
to the single item 0 to 0, the NONE class always has that curve), checks
every curve has a 0 threshold, and initialises pwm to 100, rpm to 0 and
the override and its expiry to unset. -/
def Shelf.build (identifier : String) (devices : List Device)
    (sleep_time : Rat)
    (hdd_temps ssd_temps cpu_temps : Option (List (Rat × Rat))) :
    Except ShelfError Shelf :=
  let temps : DeviceType → List (Rat × Rat) := fun t =>
    match t with
    | .NONE => [(0, 0)]
    | .HDD => hdd_temps.getD [(0, 0)]
    | .SSD => ssd_temps.getD [(0, 0)]
    | .CPU => cpu_temps.getD [(0, 0)]
  if allDeviceTypes.all (fun t => (curveZero (temps t)).isSome) then
    .ok { identifier := identifier, devices := devicesDict devices,
          temperatures := temps, pwm := 100, rpm := 0,
          pwm_override := none, pwm_expire := none,
          sleep_time := sleep_time }
  else .error .temperatureBadValue

/-- Getter of the Shelf.pwm property: the override wins while it is set
and not expired, otherwise the base value; nowUtc is the instant
datetime.now(timezone.utc) read inside the getter. -/
def Shelf.pwmGet (s : Shelf) (nowUtc : Int) : Rat :=
  match s.pwm_override with
  | some ov =>
    match s.pwm_expire with
    | none => ov
    | some e => if nowUtc < e.instant then ov else s.pwm
  | none => s.pwm

/-- Setter of the Shelf.pwm property: sets or clears the override after
a range check. -/
def Shelf.pwmSet (s : Shelf) (speed : Option Rat) : Except ShelfError Shelf :=
  match speed with
  | some v =>
    if v < 0 ∨ v > 100 then .error .pwmBadValue
    else .ok { s with pwm_override := some v }
  | none => .ok { s with pwm_override := none }

/-- Setter of the Shelf.rpm property: rejects negative speeds before
assigning. -/
def Shelf.rpmSet (s : Shelf) (speed : Rat) : Except ShelfError Shelf :=
  if speed < 0 then .error .rpmBadValue else .ok { s with rpm := speed }

/-- The date.replace(tzinfo=localtz) normalization in the pwm_expire
setter: a naive datetime gets the local timezone attached, an aware one
is untouched. -/
def normalizeTz (localOffset : Int) (d : PyDatetime) : PyDatetime :=
  match d.tz with
  | none => { d with tz := some localOffset }
  | some _ => d

/-- Setter of the Shelf.pwm_expire property: clearing always succeeds; a
set date is first normalized to the local timezone when naive, then
rejected when it lies before the current instant nowUtc, read as
datetime.now(date.tzinfo). -/
def Shelf.pwmExpireSet (s : Shelf) (localOffset nowUtc : Int)
    (date : Option PyDatetime) : Except ShelfError Shelf :=
  match date with
  | none => .ok { s with pwm_expire := none }
  | some d0 =>
    let d := normalizeTz localOffset d0
    if d.instant < nowUtc then .error .pwmExpireBadValue
    else .ok { s with pwm_expire := some d }

/-- State of the shelf object after a property setter call: Python
assigns only after validation, so the object is unchanged when the
setter raised. -/
def afterSet (r : Except ShelfError Shelf) (s : Shelf) : Shelf :=
  match r with
  | .ok s2 => s2
  | .error _ => s

/-- Python max over a nonempty list, seeded with the head. -/
def listMax1 (x : Rat) (xs : List Rat) : Rat := xs.foldl max x

/-- Python max(iterable, default=d). -/
def listMaxD (l : List Rat) (d : Rat) : Rat :=
  match l with
  | [] => d
  | x :: xs => listMax1 x xs

/-- The temp_lists dict after the device loop of Shelf.update: devices
of the NONE class are skipped, every other device appends its
temperature to the list of its class. -/
def tempLists (devices : List Device) : DeviceType → List Rat :=
  devices.foldl
    (fun m d =>
      if d.type = DeviceType.NONE then m
      else fun t => if t = d.type then m t ++ [d.temperature] else m t)
    (fun _ => [])

/-- The effective_temps dict of Shelf.update: initialised to 0 and
overwritten with max(temp_list) for a nonempty list. -/
def effectiveTemp (devices : List Device) (t : DeviceType) : Rat :=
  match tempLists devices t with
  | [] => 0
  | x :: xs => listMax1 x xs

/-- One pwm_list entry of Shelf.update: the maximum curve speed over the
items whose threshold is at most the effective temperature, defaulting
to the 0 entry of the curve.  The constructor guarantees the 0 entry
exists; its absence would be a KeyError, modelled by the getD 0. -/
def effectiveSpeed (curve : List (Rat × Rat)) (effTemp : Rat) : Rat :=
  listMaxD ((curve.filter (fun p => decide (p.1 ≤ effTemp))).map Prod.snd)
    ((curveZero curve).getD 0)

/-- Shelf.update: recompute the base pwm from the device temperatures.
The device.update() refresh at the top of the method is hardware access
performed by the external device layer; the devices field already holds
the refreshed readings. -/
def Shelf.update (s : Shelf) : Shelf :=
  let pwmList := allDeviceTypes.map
    (fun t => effectiveSpeed (s.temperatures t) (effectiveTemp s.devices t))
  { s with pwm := listMaxD pwmList 0 }

/-- Outcome of reset_connection of communication.py: the registry left
behind, whether a DISCONNECT notice was sent, and whether the socket was
shut down and removed. -/
structure ResetResult where
  registry : Finset Nat
  sentNotice : Bool
  closed : Bool
  deriving DecidableEq

/-- is_socket_open of communication.py: membership in the module level
socket registry. -/
def is_socket_open (registry : Finset Nat) (sock : Nat) : Bool :=
  decide (sock ∈ registry)

/-- reset_connection of communication.py: a socket that is not
registered is left alone (early return before any send, shutdown, close
or removal); a registered one is notified when asked, shut down and
removed exactly once.  Failures of the notice and of the OS close are
logged and swallowed, so they do not affect the result. -/
def reset_connection (registry : Finset Nat) (sock : Nat) (notice : Bool) :
    ResetResult :=
  if is_socket_open registry sock then
    { registry := registry.erase sock, sentNotice := notice, closed := true }
  else
    { registry := registry, sentNotice := false, closed := false }

/-- Errors a request handler raises to the dispatch loop. -/
inductive HandlerError where
  | shelfNotFound (shelfId : String)
  | valueError (e : ShelfError)
  deriving DecidableEq, Repr

/-- Assignment into the module level shelf dict of server.py. -/
def setShelf : List (String × Shelf) → String → Shelf → List (String × Shelf)
  | [], _, _ => []
  | (k, v) :: rest, i, s =>
    if k = i then (k, s) :: rest else (k, v) :: setShelf rest i s

/-- Handler _handle_set_rpm of server.py: look up the shelf (a KeyError
becomes ShelfNotFoundError), assign shelf.rpm (a ValueError from the
setter propagates), then reply ACK. -/
def handle_set_rpm (shelves : List (String × Shelf)) (shelfId : String)
    (speed : Rat) : Except HandlerError (List (String × Shelf) × Request) :=
  match shelves.find? (fun p => decide (p.1 = shelfId)) with
  | none => .error (.shelfNotFound shelfId)
  | some (_, s) =>
    match s.rpmSet speed with
    | .error e => .error (.valueError e)
    | .ok s2 => .ok (setShelf shelves shelfId s2, .ACK)

/-- The 0 threshold entry of a curve, as the spec words it. -/
def zeroEntry (curve : List (Rat × Rat)) : Rat := (curveZero curve).getD 0

/-- Effective temperature as the spec words it: the maximum temperature
observed among the devices of the class, 0 when the class has none;
devices of the NONE class are never counted. -/
def specEffectiveTemp (devices : List Device) (t : DeviceType) : Rat :=
  (((devices.filter
      (fun d => decide (d.type = t ∧ d.type ≠ DeviceType.NONE))).map
    Device.temperature).max?).getD 0

/-- Base pwm as the spec words it: the maximum over the four device
classes of the effective speed of the class at its effective
temperature. -/
def specBasePwm (s : Shelf) : Rat :=
  listMaxD
    (allDeviceTypes.map
      (fun t => effectiveSpeed (s.temperatures t)
        (specEffectiveTemp s.devices t))) 0

/-- Base pwm as claim C2 words it: the maximum over the four classes,
where a class with no devices contributes the 0 threshold entry of its
curve and a class with devices contributes its effective speed. -/
def claimC2BasePwm (s : Shelf) : Rat :=
  listMaxD
    (allDeviceTypes.map
      (fun t =>
        if (s.devices.filter
            (fun d => decide (d.type = t ∧ d.type ≠ DeviceType.NONE))).isEmpty
        then zeroEntry (s.temperatures t)
        else effectiveSpeed (s.temperatures t)
          (specEffectiveTemp s.devices t))) 0

/-- The HDD curve of the testable-properties section of the spec. -/
def specCurve : List (Rat × Rat) := [(0, 25), (30, 30), (35, 50), (40, 75), (41, 100)]

/-- A shelf with no devices whose HDD curve carries a negative
threshold; reachable through Shelf.build, see the reachability
conjunct of the counterexample theorem. -/
def shelfNegCurve : Shelf :=
  { identifier := "cex", devices := [],
    temperatures := fun t =>
      match t with
      | .NONE => [(0, 0)]
      | .HDD => [(0, 25), (-10, 80)]
      | .SSD => [(0, 0)]
      | .CPU => [(0, 0)],
    pwm := 100, rpm := 0, pwm_override := none, pwm_expire := none,
    sleep_time := 60 }

/-- A concrete shelf used to instantiate theorems with hypotheses. -/
def shelfW : Shelf :=
  { identifier := "shelf-A", devices := [],
    temperatures := fun t =>
      match t with
      | .NONE => [(0, 0)]
      | .HDD => [(0, 25), (30, 30), (35, 50), (40, 75), (41, 100)]
      | .SSD => [(0, 0)]
      | .CPU => [(0, 0)],
    pwm := 55, rpm := 1500, pwm_override := some 40, pwm_expire := none,
    sleep_time := 60 }

/-- The shelf Shelf.build returns for a configuration with no devices
and default curves; used to instantiate theorems. -/
def shelfFresh : Shelf :=
  { identifier := "shelf-A", devices := [],
    temperatures := fun t =>
      match t with
      | .NONE => [(0, 0)]
      | .HDD => [(0, 0)]
      | .SSD => [(0, 0)]
      | .CPU => [(0, 0)],
    pwm := 100, rpm := 0, pwm_override := none, pwm_expire := none,
    sleep_time := 60 }

theorem natDecode_encode (n : Nat) (rest : List Nat) :
    natDecode (natEncode n ++ rest) = some (n, rest) := by
  induction n with
  | zero => simp [natEncode, natDecode]
  | succ k ih =>
    have : natEncode (k + 1) ++ rest = 1 :: (natEncode k ++ rest) := by
      simp [natEncode, List.replicate_succ]
    rw [this, natDecode, if_neg (by omega), if_pos rfl, ih]

theorem intDecode_encode (i : Int) (rest : List Nat) :
    intDecode (intEncode i ++ rest) = some (i, rest) := by
  by_cases h : i < 0
  · rw [intEncode, if_pos h]
    show intDecode (1 :: (natEncode i.natAbs ++ rest)) = _
    simp only [intDecode, natDecode_encode]
    norm_num
    simp [abs_of_neg h]
  · rw [intEncode, if_neg h]
    show intDecode (0 :: (natEncode i.natAbs ++ rest)) = _
    simp [intDecode, natDecode_encode]
    omega

theorem ratDecode_encode (q : Rat) (rest : List Nat) :
    ratDecode (ratEncode q ++ rest) = some (q, rest) := by
  rw [ratEncode, List.append_assoc]
  simp [ratDecode, intDecode_encode, natDecode_encode, Rat.num_div_den]

theorem charsDecode_encode (cs : List Char) (rest : List Nat) :
    charsDecode cs.length (charsEncode cs ++ rest) = some (cs, rest) := by
  induction cs with
  | nil => simp [charsEncode, charsDecode]
  | cons c cs ih =>
    show charsDecode (cs.length + 1)
      ((natEncode c.toNat ++ charsEncode cs) ++ rest) = _
    rw [List.append_assoc]
    simp [charsDecode, natDecode_encode, ih, Char.ofNat_toNat]

theorem strDecode_encode (s : String) (rest : List Nat) :
    strDecode (strEncode s ++ rest) = some (s, rest) := by
  obtain ⟨data⟩ := s
  rw [strEncode, List.append_assoc]
  simp [strDecode, natDecode_encode, charsDecode_encode]

theorem valDecode_encode (v : PyVal) (rest : List Nat) :
    valDecode (valEncode v ++ rest) = some (v, rest) := by
  cases v with
  | pyNone => simp [valEncode, valDecode]
  | pyInt i =>
    show valDecode (1 :: (intEncode i ++ rest)) = _
    simp [valDecode, intDecode_encode]
  | pyRat q =>
    show valDecode (2 :: (ratEncode q ++ rest)) = _
    simp [valDecode, ratDecode_encode]
  | pyStr s =>
    show valDecode (3 :: (strEncode s ++ rest)) = _
    simp [valDecode, strDecode_encode]

theorem valsDecode_encode (args : List PyVal) (rest : List Nat) :
    valsDecode args.length
      (args.foldr (fun v acc => valEncode v ++ acc) [] ++ rest) =
      some (args, rest) := by
  induction args with
  | nil => simp [valsDecode]
  | cons v vs ih =>
    show valsDecode (vs.length + 1)
      ((valEncode v ++ vs.foldr (fun v acc => valEncode v ++ acc) []) ++
        rest) = _
    rw [List.append_assoc]
    simp [valsDecode, valDecode_encode, ih]

theorem requestOfTag_requestTag (r : Request) :
    requestOfTag (requestTag r) = some r := by
  cases r <;> rfl

theorem valsDecode_encode_nil (args : List PyVal) :
    valsDecode args.length
      (args.foldr (fun v acc => valEncode v ++ acc) []) =
      some (args, []) := by
  have h := valsDecode_encode args []
  simpa using h

theorem pickleLoads_pickleDumps (request : Request) (args : List PyVal) :
    pickleLoads (pickleDumps request args) = some (request, args) := by
  rw [pickleDumps, valsEncode]
  simp [pickleLoads, requestOfTag_requestTag, natDecode_encode,
    valsDecode_encode_nil]

theorem parseHexAux_append (l1 l2 : List Nat) (acc : Nat) :
    parseHexAux (l1 ++ l2) acc =
      match parseHexAux l1 acc with
      | some a => parseHexAux l2 a
      | none => none := by
  induction l1 generalizing acc with
  | nil => simp [parseHexAux]
  | cons c cs ih =>
    show parseHexAux (c :: (cs ++ l2)) acc = _
    rw [parseHexAux, parseHexAux]
    cases hexDigitVal c with
    | none => simp
    | some d => simp [ih]

theorem hexDigitVal_toHexChar (d : Nat) (h : d < 16) :
    hexDigitVal (toHexChar d) = some d := by
  revert h
  revert d
  decide

theorem parseHexAux_natToHexAux (fuel : Nat) :
    ∀ n acc, n ≤ fuel →
      parseHexAux ((natToHexAux fuel n).reverse.map toHexChar) acc =
        some (acc * 16 ^ (natToHexAux fuel n).length + n) := by
  induction fuel with
  | zero =>
    intro n acc h
    have hn : n = 0 := Nat.le_zero.mp h
    subst hn
    simp [natToHexAux, parseHexAux]
  | succ fuel ih =>
    intro n acc h
    by_cases hn : n = 0
    · subst hn
      simp [natToHexAux, parseHexAux]
    · rw [natToHexAux, if_neg hn]
      have hdiv : n / 16 ≤ fuel := by
        have : n / 16 < n := Nat.div_lt_self (Nat.pos_of_ne_zero hn)
          (by omega)
        omega
      rw [List.reverse_cons, List.map_append, parseHexAux_append,
        ih (n / 16) acc hdiv]
      show parseHexAux [toHexChar (n % 16)] _ = _
      simp only [parseHexAux, hexDigitVal_toHexChar (n % 16) (by omega)]
      congr 1
      rw [List.length_cons, pow_succ]
      calc 16 * (acc * 16 ^ (natToHexAux fuel (n / 16)).length + n / 16) +
            n % 16 =
          acc * (16 ^ (natToHexAux fuel (n / 16)).length * 16) +
            (16 * (n / 16) + n % 16) := by ring
        _ = _ := by rw [Nat.div_add_mod]

theorem parseHexAux_leading_zeros (k : Nat) (l : List Nat) :
    parseHexAux (List.replicate k 48 ++ l) 0 = parseHexAux l 0 := by
  induction k with
  | zero => simp
  | succ k ih =>
    rw [List.replicate_succ]
    show parseHexAux (48 :: (List.replicate k 48 ++ l)) 0 = _
    rw [parseHexAux]
    have : hexDigitVal 48 = some 0 := by decide
    rw [this]
    simpa using ih

/-- The length field always parses back to the payload size it encodes. -/
theorem parseHex_lenField (n : Nat) : parseHex (lenField n) = some n := by
  by_cases hn : n = 0
  · subst hn
    decide
  · have hcons : ∃ d ds, natToHexAux n n = d :: ds := by
      cases n with
      | zero => exact absurd rfl hn
      | succ m =>
        rw [natToHexAux, if_neg hn]
        exact ⟨_, _, rfl⟩
    obtain ⟨d, ds, hds⟩ := hcons
    rw [lenField, natToHexBytes, if_neg hn, zfill, parseHex]
    rw [if_neg (by rw [hds]; simp)]
    rw [parseHexAux_leading_zeros, parseHexAux_natToHexAux n n 0 le_rfl]
    simp

theorem natToHexAux_length_le (fuel : Nat) :
    ∀ n k, n < 16 ^ k → (natToHexAux fuel n).length ≤ k := by
  induction fuel with
  | zero => intro n k _; simp [natToHexAux]
  | succ fuel ih =>
    intro n k h
    by_cases hn : n = 0
    · simp [natToHexAux, hn]
    · rw [natToHexAux, if_neg hn]
      cases k with
      | zero => simp at h; omega
      | succ k =>
        have hdiv : n / 16 < 16 ^ k := by
          rw [Nat.div_lt_iff_lt_mul (by omega)]
          calc n < 16 ^ (k + 1) := h
          _ = 16 ^ k * 16 := by ring
        simpa using ih (n / 16) k hdiv

/-- For payloads that fit, the length field is exactly four bytes. -/
theorem lenField_length (n : Nat) (h : n < 65536) :
    (lenField n).length = 4 := by
  have hle : (natToHexBytes n).length ≤ 4 := by
    rw [natToHexBytes]
    by_cases hn : n = 0
    · simp [hn]
    · rw [if_neg hn]
      have := natToHexAux_length_le n n 4 (by norm_num; omega)
      simpa using this
  rw [lenField, zfill, List.length_append, List.length_replicate]
  show HEADER_DATA_SIZE - _ + _ = 4
  rw [HEADER_DATA_SIZE]
  omega

theorem take_length_append (l1 l2 : List Nat) :
    (l1 ++ l2).take l1.length = l1 := by
  induction l1 with
  | nil => simp
  | cons x xs ih => simp [ih]

theorem drop_length_append (l1 l2 : List Nat) :
    (l1 ++ l2).drop l1.length = l2 := by
  induction l1 with
  | nil => simp
  | cons x xs ih => simp [ih]

theorem recv_sendFrame (payload rest : List Nat)
    (h : payload.length ≤ 65535) :
    recv (sendFrame payload ++ rest) =
      match pickleLoads payload with
      | none => .error .corruptedData
      | some (request, args) =>
        if request = .DISCONNECT then .error .connectionReset
        else .ok ((request, args), rest) := by
  have hlen4 : (lenField payload.length).length = 4 :=
    lenField_length _ (by omega)
  have hstream : sendFrame payload ++ rest =
      (HEADER_MAGIC ++ lenField payload.length) ++ (payload ++ rest) := by
    simp [sendFrame]
  have hhdr8 : (HEADER_MAGIC ++ lenField payload.length).length =
      HEADER_SIZE := by
    simp [HEADER_MAGIC, hlen4, HEADER_SIZE, HEADER_MAGIC_SIZE,
      HEADER_DATA_SIZE]
  have htake : (sendFrame payload ++ rest).take HEADER_SIZE =
      HEADER_MAGIC ++ lenField payload.length := by
    rw [hstream, ← hhdr8, take_length_append]
  have hdrop : (sendFrame payload ++ rest).drop HEADER_SIZE =
      payload ++ rest := by
    rw [hstream, ← hhdr8, drop_length_append]
  have htakeMagic : (HEADER_MAGIC ++ lenField payload.length).take
      HEADER_MAGIC_SIZE = HEADER_MAGIC := by
    have h4 : HEADER_MAGIC_SIZE = HEADER_MAGIC.length := rfl
    rw [h4, take_length_append]
  have hdropMagic : (HEADER_MAGIC ++ lenField payload.length).drop
      HEADER_MAGIC_SIZE = lenField payload.length := by
    have h4 : HEADER_MAGIC_SIZE = HEADER_MAGIC.length := rfl
    rw [h4, drop_length_append]
  have hdata : ((sendFrame payload ++ rest).drop HEADER_SIZE).take
      payload.length = payload := by
    rw [hdrop, take_length_append]
  have hrest : (sendFrame payload ++ rest).drop
      (HEADER_SIZE + payload.length) = rest := by
    have h1 : sendFrame payload ++ rest =
        (HEADER_MAGIC ++ lenField payload.length ++ payload) ++ rest := by
      simp [sendFrame]
    have h2 : HEADER_SIZE + payload.length =
        (HEADER_MAGIC ++ lenField payload.length ++ payload).length := by
      simp [HEADER_MAGIC, hlen4, HEADER_SIZE, HEADER_MAGIC_SIZE,
        HEADER_DATA_SIZE]
      omega
    rw [h1, h2, drop_length_append]
  have hempty : (HEADER_MAGIC ++ lenField payload.length).isEmpty = false := by
    simp [HEADER_MAGIC]
  simp only [recv, htake, hdrop, hempty, hhdr8, htakeMagic, hdropMagic,
    parseHex_lenField, take_length_append, hrest, Bool.false_eq_true,
    ne_eq, not_true_eq_false, if_false, ite_false]

/-- C1 (amended): for every request kind other than DISCONNECT, and any
argument tuple whose pickled payload fits the four hex digit length
field, recv of the frame send produces returns exactly the pair that
was sent and leaves the rest of the stream unread; a sent DISCONNECT is
instead surfaced to the caller as a connection-reset condition. -/
theorem c1_roundtrip (r : Request) (args : List PyVal) (rest : List Nat)
    (hsize : (pickleDumps r args).length ≤ 65535) :
    (r ≠ .DISCONNECT →
      recv (send r args ++ rest) = .ok ((r, args), rest)) ∧
    (r = .DISCONNECT →
      recv (send r args ++ rest) = .error .connectionReset) := by
  have hcore := recv_sendFrame (pickleDumps r args) rest hsize
  rw [pickleLoads_pickleDumps] at hcore
  constructor
  · intro hne
    show recv (sendFrame (pickleDumps r args) ++ rest) = _
    rw [hcore]
    simp [hne]
  · intro heq
    show recv (sendFrame (pickleDumps r args) ++ rest) = _
    rw [hcore]
    simp [heq]

set_option maxRecDepth 100000 in
theorem c1_roundtrip_witness :
    recv (send .PING [.pyStr "shelf-A"] ++ [9, 9]) =
      .ok ((.PING, [.pyStr "shelf-A"]), [9, 9]) :=
  (c1_roundtrip .PING [.pyStr "shelf-A"] [9, 9] (by decide)).1 (by decide)

/-- C1 (counterexample): the round trip does not hold at DISCONNECT,
because recv raises the connection-reset condition instead of returning
the message. -/
theorem c1_disconnect_cex :
    recv (send .DISCONNECT []) = .error .connectionReset ∧
    recv (send .DISCONNECT []) ≠
      .ok ((.DISCONNECT, []), ([] : List Nat)) := by
  have h1 : recv (send .DISCONNECT []) = .error .connectionReset := by rfl
  refine ⟨h1, ?_⟩
  rw [h1]
  exact fun hc => Except.noConfusion hc

/-- C6: for the failing input, a payload of 65536 bytes, send emits a
length field of five hex digits 10000 instead of the four the frame
format fixes (format(n, "x").zfill(4) pads but never truncates), while
any payload up to 65535 bytes gets exactly four digits; the module
constants still declare a four byte size field, which recv relies on. -/
theorem c6_length_field :
    lenField (List.replicate 65536 (0 : Nat)).length =
      [49, 48, 48, 48, 48] ∧
    (lenField (List.replicate 65536 (0 : Nat)).length).length ≠
      HEADER_DATA_SIZE ∧
    (lenField 65535).length = HEADER_DATA_SIZE ∧
    sendFrame (List.replicate 65536 (0 : Nat)) =
      HEADER_MAGIC ++ [49, 48, 48, 48, 48] ++
        List.replicate 65536 (0 : Nat) := by
  have h1 : lenField 65536 = [49, 48, 48, 48, 48] := by decide
  have h2 : (List.replicate 65536 (0 : Nat)).length = 65536 :=
    List.length_replicate 65536 0
  refine ⟨by rw [h2, h1], by rw [h2, h1]; decide, by decide, ?_⟩
  rw [sendFrame, h2, h1]

theorem listMax1_mem (x : Rat) (xs : List Rat) : listMax1 x xs ∈ x :: xs := by
  induction xs generalizing x with
  | nil => simp [listMax1]
  | cons y ys ih =>
    have h1 : listMax1 x (y :: ys) = listMax1 (max x y) ys := rfl
    rw [h1]
    rcases List.mem_cons.mp (ih (max x y)) with h | h
    · rcases max_choice x y with hm | hm
      · rw [h, hm]
        exact List.mem_cons_self _ _
      · rw [h, hm]
        exact List.mem_cons_of_mem _ (List.mem_cons_self _ _)
    · exact List.mem_cons_of_mem _ (List.mem_cons_of_mem _ h)

theorem le_listMax1_seed (xs : List Rat) (x : Rat) : x ≤ listMax1 x xs := by
  induction xs generalizing x with
  | nil => simp [listMax1]
  | cons y ys ih =>
    have h1 : listMax1 x (y :: ys) = listMax1 (max x y) ys := rfl
    rw [h1]
    exact le_trans (le_max_left x y) (ih (max x y))

theorem le_listMax1 (xs : List Rat) (x y : Rat) (h : y ∈ x :: xs) :
    y ≤ listMax1 x xs := by
  induction xs generalizing x with
  | nil =>
    rcases List.mem_cons.mp h with h2 | h2
    · rw [h2]
      exact le_listMax1_seed [] x
    · cases h2
  | cons z zs ih =>
    have h1 : listMax1 x (z :: zs) = listMax1 (max x z) zs := rfl
    rw [h1]
    rcases List.mem_cons.mp h with h2 | h2
    · rw [h2]
      exact le_trans (le_max_left x z) (le_listMax1_seed zs (max x z))
    · rcases List.mem_cons.mp h2 with h3 | h3
      · rw [h3]
        exact le_trans (le_max_right x z) (le_listMax1_seed zs (max x z))
      · exact ih (max x z) (List.mem_cons_of_mem _ h3)

theorem tempLists_aux (ds : List Device) (m : DeviceType → List Rat)
    (t : DeviceType) :
    (ds.foldl
      (fun m d =>
        if d.type = DeviceType.NONE then m
        else fun t => if t = d.type then m t ++ [d.temperature] else m t)
      m) t =
      m t ++ ((ds.filter
        (fun d => decide (d.type = t ∧ d.type ≠ DeviceType.NONE))).map
          Device.temperature) := by
  induction ds generalizing m with
  | nil => simp
  | cons d ds ih =>
    rw [List.foldl_cons, ih]
    by_cases hnone : d.type = DeviceType.NONE
    · rw [if_pos hnone]
      rw [List.filter_cons_of_neg (by simp [hnone])]
    · rw [if_neg hnone]
      by_cases ht : t = d.type
      · simp [List.filter_cons, ht, hnone]
      · have ht2 : d.type ≠ t := fun hc => ht hc.symm
        simp [List.filter_cons, ht, ht2]

theorem tempLists_eq (ds : List Device) (t : DeviceType) :
    tempLists ds t =
      ((ds.filter
        (fun d => decide (d.type = t ∧ d.type ≠ DeviceType.NONE))).map
          Device.temperature) := by
  rw [tempLists, tempLists_aux]
  rfl

theorem effectiveTemp_eq_spec (ds : List Device) (t : DeviceType) :
    effectiveTemp ds t = specEffectiveTemp ds t := by
  rw [effectiveTemp, specEffectiveTemp, tempLists_eq]
  cases ((ds.filter
      (fun d => decide (d.type = t ∧ d.type ≠ DeviceType.NONE))).map
        Device.temperature) with
  | nil => rfl
  | cons x xs => rw [List.max?_cons']; rfl

theorem curveZero_cons (k w : Rat) (rest : List (Rat × Rat)) :
    curveZero ((k, w) :: rest) =
      if k = 0 then some w else curveZero rest := by
  by_cases hk : k = 0
  · subst hk
    simp [curveZero, List.find?]
  · simp [curveZero, List.find?, hk]

theorem filter_nonpos_of_zero_key (curve : List (Rat × Rat)) (v : Rat)
    (hnodup : (curve.map Prod.fst).Nodup) (hpos : ∀ p ∈ curve, 0 ≤ p.1)
    (hzero : curveZero curve = some v) :
    curve.filter (fun p => decide (p.1 ≤ (0 : Rat))) = [(0, v)] := by
  induction curve with
  | nil => simp [curveZero] at hzero
  | cons p rest ih =>
    obtain ⟨k, w⟩ := p
    rw [curveZero_cons] at hzero
    by_cases hk : k = 0
    · rw [if_pos hk] at hzero
      subst hk
      have hv : v = w := by simpa using hzero.symm
      subst hv
      rw [List.filter_cons_of_pos (by simp)]
      have hrest : rest.filter (fun p => decide (p.1 ≤ (0 : Rat))) = [] := by
        rw [List.filter_eq_nil_iff]
        intro q hq
        have hq0 : 0 ≤ q.1 := hpos q (List.mem_cons_of_mem _ hq)
        have hqne : q.1 ≠ 0 := by
          intro hc
          have hmem : (0 : Rat) ∈ rest.map Prod.fst := by
            rw [← hc]
            exact List.mem_map_of_mem _ hq
          rw [List.map_cons, List.nodup_cons] at hnodup
          exact hnodup.1 hmem
        intro hc
        rw [decide_eq_true_eq] at hc
        exact hqne (le_antisymm hc hq0)
      rw [hrest]
    · rw [if_neg hk] at hzero
      have hk0 : (0 : Rat) ≤ k := by
        simpa using hpos (k, w) (List.mem_cons_self _ _)
      have hk2 : ¬((k, w) : Rat × Rat).1 ≤ (0 : Rat) :=
        fun hc => hk (le_antisymm hc hk0)
      rw [List.filter_cons_of_neg (by simpa using hk2)]
      apply ih
      · rw [List.map_cons, List.nodup_cons] at hnodup
        exact hnodup.2
      · intro q hq
        exact hpos q (List.mem_cons_of_mem _ hq)
      · exact hzero

/-- C2 (amended): after Shelf.update the base pwm is the maximum over
all four device classes of the effective speed of the class at its
effective temperature; a class with no devices has effective
temperature 0 and therefore contributes the largest curve value whose
threshold is at most 0, which is the 0 threshold entry whenever the
curve has no negative thresholds (for distinct curve keys). -/
theorem c2_base_pwm (s : Shelf) :
    (Shelf.update s).pwm = specBasePwm s ∧
    (∀ t : DeviceType,
      s.devices.filter
        (fun d => decide (d.type = t ∧ d.type ≠ DeviceType.NONE)) = [] →
      specEffectiveTemp s.devices t = 0) ∧
    (∀ (curve : List (Rat × Rat)) (v : Rat),
      (curve.map Prod.fst).Nodup → (∀ p ∈ curve, 0 ≤ p.1) →
      curveZero curve = some v → effectiveSpeed curve 0 = v) := by
  refine ⟨?_, ?_, ?_⟩
  · rw [Shelf.update, specBasePwm]
    simp only [effectiveTemp_eq_spec]
  · intro t h
    rw [specEffectiveTemp, h]
    rfl
  · intro curve v hnodup hpos hzero
    rw [effectiveSpeed, filter_nonpos_of_zero_key curve v hnodup hpos hzero]
    rfl

theorem c2_base_pwm_witness :
    (Shelf.update shelfW).pwm = specBasePwm shelfW ∧
    specEffectiveTemp shelfW.devices DeviceType.HDD = 0 ∧
    effectiveSpeed specCurve 0 = 25 :=
  ⟨(c2_base_pwm shelfW).1,
   (c2_base_pwm shelfW).2.1 DeviceType.HDD (by decide),
   (c2_base_pwm shelfW).2.2 specCurve 25 (by decide) (by decide) (by decide)⟩

/-- C2 (counterexample): a shelf reachable through the constructor whose
HDD curve has a negative threshold entry; all classes are deviceless,
yet after update the base pwm is 80, the negative-threshold value, not
25, the maximum of the 0 threshold entries claimed. -/
theorem c2_zero_entry_cex :
    Shelf.build "cex" [] 60 (some [(0, 25), (-10, 80)]) none none =
      .ok shelfNegCurve ∧
    (Shelf.update shelfNegCurve).pwm = 80 ∧
    claimC2BasePwm shelfNegCurve = 25 ∧
    (Shelf.update shelfNegCurve).pwm ≠ claimC2BasePwm shelfNegCurve := by
  refine ⟨rfl, by decide, by decide, by decide⟩

/-- C3: with the spec curve the effective speed at effective temperature
34 is 30, at 41 it is 100 and at -5, below every threshold, it falls
back to the 0 entry 25; in general, whenever some threshold of the curve
is at most the effective temperature, the effective speed is the largest
curve value among those entries, whatever the order of the keys. -/
theorem c3_effective_speed :
    effectiveSpeed specCurve 34 = 30 ∧
    effectiveSpeed specCurve 41 = 100 ∧
    effectiveSpeed specCurve (-5) = 25 ∧
    (∀ (curve : List (Rat × Rat)) (temp : Rat),
      (∃ p ∈ curve, p.1 ≤ temp) →
      (∃ p ∈ curve, p.1 ≤ temp ∧ effectiveSpeed curve temp = p.2) ∧
      (∀ q ∈ curve, q.1 ≤ temp → q.2 ≤ effectiveSpeed curve temp)) := by
  refine ⟨by decide, by decide, by decide, ?_⟩
  intro curve temp hex
  obtain ⟨p, hp, hple⟩ := hex
  have hpmem : p.2 ∈
      (curve.filter (fun p => decide (p.1 ≤ temp))).map Prod.snd := by
    apply List.mem_map_of_mem
    rw [List.mem_filter]
    exact ⟨hp, by simpa using hple⟩
  cases hl : (curve.filter (fun p => decide (p.1 ≤ temp))).map Prod.snd with
  | nil => rw [hl] at hpmem; cases hpmem
  | cons x xs =>
    have hspeed : effectiveSpeed curve temp = listMax1 x xs := by
      rw [effectiveSpeed, hl]
      rfl
    constructor
    · have hmem := listMax1_mem x xs
      rw [← hl] at hmem
      obtain ⟨q, hq, hq2⟩ := List.mem_map.mp hmem
      rw [List.mem_filter] at hq
      exact ⟨q, hq.1, by simpa using hq.2, by rw [hspeed, ← hq2]⟩
    · intro q hq hqle
      have hqmem : q.2 ∈ x :: xs := by
        rw [← hl]
        apply List.mem_map_of_mem
        rw [List.mem_filter]
        exact ⟨hq, by simpa using hqle⟩
      rw [hspeed]
      exact le_listMax1 xs x q.2 hqmem

theorem c3_effective_speed_witness :
    (∃ p ∈ specCurve, p.1 ≤ (34 : Rat) ∧
      effectiveSpeed specCurve 34 = p.2) ∧
    (∀ q ∈ specCurve, q.1 ≤ (34 : Rat) →
      q.2 ≤ effectiveSpeed specCurve 34) :=
  c3_effective_speed.2.2.2 specCurve 34 (by decide)

/-- C4: with the override set to 40, reading pwm gives 40 whatever the
base value when no expiry is set or when the expiry instant is one hour
after the read; when the expiry instant is one second before the read,
the getter falls back to the base value at once. -/
theorem c4_override (s : Shelf) (now : Int)
    (hov : s.pwm_override = some 40) :
    (s.pwm_expire = none → s.pwmGet now = 40) ∧
    (∀ e, s.pwm_expire = some e → e.instant = now - 1 →
      s.pwmGet now = s.pwm) ∧
    (∀ e, s.pwm_expire = some e → e.instant = now + 3600 →
      s.pwmGet now = 40) := by
  refine ⟨?_, ?_, ?_⟩
  · intro h
    simp [Shelf.pwmGet, hov, h]
  · intro e he hi
    simp only [Shelf.pwmGet, hov, he, hi]
    rw [if_neg (by omega)]
  · intro e he hi
    simp only [Shelf.pwmGet, hov, he, hi]
    rw [if_pos (by omega)]

theorem c4_override_witness :
    shelfW.pwmGet 1000 = 40 ∧
    ({ shelfW with pwm_expire := some ⟨999, some 0⟩ } : Shelf).pwmGet 1000
      = 55 ∧
    ({ shelfW with pwm_expire := some ⟨4600, some 0⟩ } : Shelf).pwmGet 1000
      = 40 :=
  ⟨(c4_override shelfW 1000 rfl).1 rfl,
   (c4_override { shelfW with pwm_expire := some ⟨999, some 0⟩ } 1000
     rfl).2.1 ⟨999, some 0⟩ rfl (by decide),
   (c4_override { shelfW with pwm_expire := some ⟨4600, some 0⟩ } 1000
     rfl).2.2 ⟨4600, some 0⟩ rfl (by decide)⟩

/-- C5: assigning a negative rpm raises the domain error
ShelfRpmBadValue before any assignment, so the shelf is unchanged, for
every negative speed and every prior state; through the SET_RPM handler
the same error propagates to the dispatch loop as a ValueError. -/
theorem c5_set_rpm_negative (shelves : List (String × Shelf))
    (shelfId : String) (s : Shelf) (speed : Rat) (hneg : speed < 0) :
    (Shelf.rpmSet s speed = .error .rpmBadValue ∧
      afterSet (Shelf.rpmSet s speed) s = s) ∧
    ((shelves.find? (fun p => decide (p.1 = shelfId))).isSome →
      handle_set_rpm shelves shelfId speed =
        .error (.valueError .rpmBadValue)) := by
  have h1 : Shelf.rpmSet s speed = .error .rpmBadValue := by
    rw [Shelf.rpmSet, if_pos hneg]
  refine ⟨⟨h1, by rw [h1]; rfl⟩, ?_⟩
  intro hsome
  cases hfind : shelves.find? (fun p => decide (p.1 = shelfId)) with
  | none => rw [hfind] at hsome; cases hsome
  | some p =>
    obtain ⟨k, s0⟩ := p
    have h2 : Shelf.rpmSet s0 speed = .error .rpmBadValue := by
      rw [Shelf.rpmSet, if_pos hneg]
    rw [handle_set_rpm, hfind]
    simp [h2]

theorem c5_set_rpm_negative_witness :
    (Shelf.rpmSet shelfW (-1) = .error .rpmBadValue ∧
      afterSet (Shelf.rpmSet shelfW (-1)) shelfW = shelfW) ∧
    handle_set_rpm [("shelf-A", shelfW)] "shelf-A" (-1) =
      .error (.valueError .rpmBadValue) :=
  ⟨(c5_set_rpm_negative [("shelf-A", shelfW)] "shelf-A" shelfW (-1)
      (by decide)).1,
   (c5_set_rpm_negative [("shelf-A", shelfW)] "shelf-A" shelfW (-1)
      (by decide)).2 (by decide)⟩

/-- C7: setting pwm_expire to an instant before now raises the domain
error ShelfPwmExpireBadValue and leaves the field unchanged; a naive
date is given the local timezone before both the comparison and the
store, so setting it behaves exactly like setting the normalized date,
and a successful set stores the normalized date. -/
theorem c7_pwm_expire (s : Shelf) (loc now : Int) (d : PyDatetime) :
    ((normalizeTz loc d).instant < now →
      Shelf.pwmExpireSet s loc now (some d) = .error .pwmExpireBadValue ∧
      afterSet (Shelf.pwmExpireSet s loc now (some d)) s = s) ∧
    (d.tz = none →
      Shelf.pwmExpireSet s loc now (some d) =
        Shelf.pwmExpireSet s loc now (some { d with tz := some loc }) ∧
      (¬(normalizeTz loc d).instant < now →
        Shelf.pwmExpireSet s loc now (some d) =
          .ok { s with pwm_expire := some { d with tz := some loc } })) := by
  constructor
  · intro h
    have he : Shelf.pwmExpireSet s loc now (some d) =
        .error .pwmExpireBadValue := by
      rw [Shelf.pwmExpireSet]
      simp only [if_pos h]
    exact ⟨he, by rw [he]; rfl⟩
  · intro htz
    have hnorm : normalizeTz loc d = { d with tz := some loc } := by
      rw [normalizeTz, htz]
    have hnorm2 : normalizeTz loc { d with tz := some loc } =
        { d with tz := some loc } := by
      rw [normalizeTz]
    constructor
    · rw [Shelf.pwmExpireSet, Shelf.pwmExpireSet]
      simp only [hnorm, hnorm2]
    · intro h
      rw [Shelf.pwmExpireSet]
      simp only [hnorm] at h ⊢
      rw [if_neg h]

theorem c7_pwm_expire_witness :
    (Shelf.pwmExpireSet shelfW 0 100 (some ⟨50, none⟩) =
        .error .pwmExpireBadValue ∧
      afterSet (Shelf.pwmExpireSet shelfW 0 100 (some ⟨50, none⟩)) shelfW
        = shelfW) ∧
    Shelf.pwmExpireSet shelfW 0 100 (some ⟨200, none⟩) =
      Shelf.pwmExpireSet shelfW 0 100 (some ⟨200, some 0⟩) ∧
    Shelf.pwmExpireSet shelfW 0 100 (some ⟨200, none⟩) =
      .ok { shelfW with pwm_expire := some ⟨200, some 0⟩ } :=
  ⟨(c7_pwm_expire shelfW 0 100 ⟨50, none⟩).1 (by decide),
   ((c7_pwm_expire shelfW 0 100 ⟨200, none⟩).2 rfl).1,
   ((c7_pwm_expire shelfW 0 100 ⟨200, none⟩).2 rfl).2 (by decide)⟩

/-- C8: Shelf.update changes neither rpm nor the override nor its
expiry, and the base value it computes is the same whatever those three
fields hold, since it reads only the devices and the curves. -/
theorem c8_update_frame (s : Shelf) (o : Option Rat)
    (e : Option PyDatetime) (r : Rat) :
    (Shelf.update s).rpm = s.rpm ∧
    (Shelf.update s).pwm_override = s.pwm_override ∧
    (Shelf.update s).pwm_expire = s.pwm_expire ∧
    (Shelf.update
        { s with pwm_override := o, pwm_expire := e, rpm := r }).pwm =
      (Shelf.update s).pwm :=
  ⟨rfl, rfl, rfl, rfl⟩

/-- C9: closing an unregistered socket is a no-op: nothing is sent,
nothing is closed, the registry is unchanged; after any close the socket
is no longer registered, so a second close is always such a no-op and at
most one close ever removes a socket. -/
theorem c9_reset_connection (reg : Finset Nat) (sock : Nat)
    (n1 n2 : Bool) :
    (is_socket_open reg sock = false →
      reset_connection reg sock n1 =
        { registry := reg, sentNotice := false, closed := false }) ∧
    is_socket_open (reset_connection reg sock n1).registry sock = false ∧
    reset_connection (reset_connection reg sock n1).registry sock n2 =
      { registry := (reset_connection reg sock n1).registry,
        sentNotice := false, closed := false } := by
  by_cases h : sock ∈ reg
  · have h1 : is_socket_open reg sock = true := by
      simp [is_socket_open, h]
    have hr1 : reset_connection reg sock n1 =
        { registry := reg.erase sock, sentNotice := n1, closed := true } := by
      rw [reset_connection, if_pos h1]
    have h2 : is_socket_open (reg.erase sock) sock = false := by
      simp [is_socket_open]
    refine ⟨?_, ?_, ?_⟩
    · intro hfalse
      rw [h1] at hfalse
      cases hfalse
    · rw [hr1]
      exact h2
    · rw [hr1]
      rw [reset_connection, if_neg (by simp [h2])]
  · have h1 : is_socket_open reg sock = false := by
      simp [is_socket_open, h]
    have hr1 : reset_connection reg sock n1 =
        { registry := reg, sentNotice := false, closed := false } := by
      rw [reset_connection, if_neg (by simp [h1])]
    refine ⟨fun _ => hr1, ?_, ?_⟩
    · rw [hr1]
      exact h1
    · rw [hr1]
      rw [reset_connection, if_neg (by simp [h1])]

theorem c9_reset_connection_witness :
    reset_connection {1, 2} 5 true =
      { registry := {1, 2}, sentNotice := false, closed := false } ∧
    reset_connection (reset_connection {1, 2} 1 true).registry 1 false =
      { registry := (reset_connection {1, 2} 1 true).registry,
        sentNotice := false, closed := false } :=
  ⟨(c9_reset_connection {1, 2} 5 true true).1 (by decide),
   (c9_reset_connection {1, 2} 1 true false).2.2⟩

/-- C10: a shelf the constructor accepts starts with the base pwm at
full speed, no override, no expiry and rpm 0, so pwm reads 100 at any
instant until the first update runs. -/
theorem c10_fresh_shelf (identifier : String) (devices : List Device)
    (st : Rat) (hdd ssd cpu : Option (List (Rat × Rat))) (s : Shelf)
    (h : Shelf.build identifier devices st hdd ssd cpu = .ok s) :
    (∀ now, s.pwmGet now = 100) ∧ s.pwm = 100 ∧ s.rpm = 0 ∧
    s.pwm_override = none ∧ s.pwm_expire = none := by
  rw [Shelf.build] at h
  split at h
  · injection h with h2
    subst h2
    exact ⟨fun _ => rfl, rfl, rfl, rfl, rfl⟩
  · cases h

theorem c10_fresh_shelf_witness :
    shelfFresh.pwmGet 12345 = 100 ∧ shelfFresh.pwm = 100 ∧
    shelfFresh.rpm = 0 :=
  ⟨(c10_fresh_shelf "shelf-A" [] 60 none none none shelfFresh rfl).1 12345,
   (c10_fresh_shelf "shelf-A" [] 60 none none none shelfFresh rfl).2.1,
   (c10_fresh_shelf "shelf-A" [] 60 none none none shelfFresh rfl).2.2.1⟩

end Fand

